import Mathlib

/-!
# Verification of the borsen-news ingestion/persistence pipeline

Shallow embedding of the core of the `borsen-news` repository:

* `db.py` / `db_new.py` — the article store: `save_to_db` (dedup + insert +
  retention sweep), `cleanup_old_articles`, `load_latest`;
* `fetch_and_translate.py` — the feed poller (`_process_feed_entries`),
  the translation dispatcher (`translate_text` and the provider functions),
  and content chunking (`_split_content_into_chunks`,
  `_translate_content_in_chunks`).

Timestamps are modelled as integers (seconds); `datetime.now()` becomes an
explicit `now : Int` parameter.  Nullable DuckDB columns become `Option`
fields.  External effects (the DuckDB `INSERT` that can raise, HTTP calls)
are modelled by explicit parameters: a `Bool` saying whether the insert
raises, and `Option`-valued network outcomes (`none` = the request raised).
-/

namespace BorsenNews

/-- One row of the `articles` table (`db.py`, `CREATE TABLE articles`).
All eleven columns are nullable; `TIMESTAMP` columns are modelled as
integer seconds. -/
structure Article where
  title : Option String
  summary : Option String
  link : Option String
  published : Option Int
  feed : Option String
  translated_summary : Option String
  content : Option String
  word_count : Option Int
  scraped_at : Option Int
  naevnte_emner : Option String
  naevnte_virksomheder : Option String
deriving DecidableEq, Repr

/-- Convenience constructor: the four fields that the dedup key, retention
sweep and ordering consult; the remaining payload columns are null. -/
def mkArticle (t s l : Option String) (p : Option Int) : Article :=
  ⟨t, s, l, p, none, none, none, none, none, none, none⟩

/-- `pandas.fillna("")` on a nullable TEXT column: null-like values become
the empty string (`db.py` line 181/182). -/
def null_to_empty (s : Option String) : String := s.getD ""

/-- The merged duplicate key `title + "|" + summary + "|" + link` built in
`save_to_db` (`db.py` lines 184–189), after `fillna("")`. -/
def article_key (r : Article) : String :=
  null_to_empty r.title ++ "|" ++ null_to_empty r.summary ++ "|" ++ null_to_empty r.link

/-- The `DELETE ... WHERE published < cutoff` predicate of
`cleanup_old_articles` (`db.py` line 62).  A SQL comparison with NULL is
not true, so a row with null `published` is never deleted. -/
def olderThanCutoff (cutoff : Int) (r : Article) : Bool :=
  match r.published with
  | some p => p < cutoff
  | none => false

/-- `cleanup_old_articles` (`db.py` lines 53–69): compute the cutoff
`now - 7 days`, delete the rows strictly older than it, and return the
new store together with `count_before - count_after`. -/
def cleanup_old_articles (now : Int) (store : List Article) : List Article × Int :=
  let cutoff := now - 7 * 86400
  let count_before : Int := store.length
  let remaining := store.filter (fun r => !olderThanCutoff cutoff r)
  let count_after : Int := remaining.length
  (remaining, count_before - count_after)

/-- `save_to_db` (`db.py` lines 106–216).  `insertRaises` models the DuckDB
`INSERT` statement raising; the `except` branch then prints the error and
returns `(0, 0, 0)` without running the retention sweep, and the failed
insert leaves the committed rows unchanged.  On the success path the
function dedups the batch against the existing `(title, summary, link)`
keys (only when the store is non-empty), inserts the surviving rows, runs
`cleanup_old_articles`, and returns
`(store, (deleted_count, skipped_count, added_count))`. -/
def save_to_db (now : Int) (insertRaises : Bool) (store : List Article)
    (df : List Article) : List Article × Int × Int × Int :=
  if df.length = 0 then (store, 0, 0, 0) else
  let attempt : Option (List Article × Int × Int) :=
    if store.length ≠ 0 then
      let existing_keys := store.map article_key
      let df_new := df.filter (fun r => !(existing_keys.contains (article_key r)))
      let skipped_count : Int := (df.length : Int) - (df_new.length : Int)
      if df_new.length > 0 then
        if insertRaises then none
        else some (store ++ df_new, skipped_count, (df_new.length : Int))
      else
        some (store, skipped_count, 0)
    else
      if insertRaises then none
      else some (store ++ df, 0, (df.length : Int))
  match attempt with
  | none => (store, 0, 0, 0)
  | some (store1, skipped_count, added_count) =>
    let (store2, deleted_count) := cleanup_old_articles now store1
    (store2, deleted_count, skipped_count, added_count)

/-- `ORDER BY published DESC` with non-null timestamps before null ones:
`a` may come before `b`. -/
def publishedDescBefore (a b : Article) : Bool :=
  match a.published, b.published with
  | some x, some y => y ≤ x
  | some _, none => true
  | none, some _ => false
  | none, none => true

/-- `load_latest` of `db.py` (lines 218–222): `SELECT * FROM articles ORDER
BY published DESC LIMIT n` with no guard, so a missing `articles` table
(modelled as `table = none`) raises a catalog error, modelled as
`Except.error`. -/
def Db.load_latest (n : Nat) (table : Option (List Article)) :
    Except String (List Article) :=
  match table with
  | none => .error "Catalog Error: Table with name articles does not exist"
  | some rows => .ok ((rows.mergeSort publishedDescBefore).take n)

/-- `load_latest` of `db_new.py` (lines 164–180): it first runs
`init_database()` (creating the table when absent) and additionally catches
`CatalogException`, returning an empty DataFrame, so a missing table yields
`[]` instead of an error. -/
def DbNew.load_latest (n : Nat) (table : Option (List Article)) : List Article :=
  match table with
  | none => []
  | some rows => (rows.mergeSort publishedDescBefore).take n

/-! ## Feed polling (`fetch_and_translate.py`) -/

/-- One RSS entry as consumed by `_process_feed_entries`.  `published` is
the result of `pd.to_datetime(entry.get("published", ""), errors="coerce")`
already normalised to a naive timestamp: `none` models `NaT`, i.e. an
unparseable (or missing) date. -/
structure FeedEntry where
  title : String
  summary : String
  link : String
  published : Option Int
deriving DecidableEq, Repr

/-- The candidate-article dict appended by `_process_feed_entries`
(`fetch_and_translate.py` lines 128–138). -/
structure CandidateArticle where
  title : String
  summary : String
  link : String
  published : Int
  feed : String
  content : String
  word_count : Int
  url : String
  scraped_at : Int
deriving DecidableEq, Repr

/-- The dict built for one kept entry: content empty, word count zero,
`url` duplicating `link`, `scraped_at = now`. -/
def mkCandidate (now : Int) (feed_url : String) (e : FeedEntry) (p : Int) :
    CandidateArticle :=
  { title := e.title, summary := e.summary, link := e.link, published := p,
    feed := feed_url, content := "", word_count := 0, url := e.link,
    scraped_at := now }

/-- `_process_feed_entries` (`fetch_and_translate.py` lines 108–140): for
each entry, keep it only when its published date parsed (`pd.notna`) and
`published_date >= cutoff_time`; order is preserved. -/
def _process_feed_entries (now : Int) (feed_url : String)
    (entries : List FeedEntry) (cutoff_time : Int) : List CandidateArticle :=
  entries.filterMap fun e =>
    match e.published with
    | some p => if cutoff_time ≤ p then some (mkCandidate now feed_url e p) else none
    | none => none

/-- The predicate "`published` parsed and is not older than the cutoff"
(`pd.notna(published_date)` and `published_date >= cutoff_time`). -/
def entryKept (cutoff_time : Int) (e : FeedEntry) : Bool :=
  match e.published with
  | some p => cutoff_time ≤ p
  | none => false

/-! ## Translation dispatch (`fetch_and_translate.py`)

HTTP effects are abstracted into `Option`-valued parameters: `none` models
the request raising (caught by the provider's `except` branch), `some r`
models a successful response whose extracted text is `r`. -/

/-- `_translate_with_deepl` (lines 332–349): missing `DEEPL_API_KEY`
returns the input text; a failed request is caught and also returns the
input text; otherwise the response translation is returned. -/
def _translate_with_deepl (apiKey : Option String) (netResult : Option String)
    (text : String) : String :=
  match apiKey with
  | none => text
  | some _ =>
    match netResult with
    | some t => t
    | none => text

/-- `_translate_with_openai` (lines 352–370): same shape as DeepL, keyed on
`OPENAI_API_KEY`. -/
def _translate_with_openai (apiKey : Option String) (netResult : Option String)
    (text : String) : String :=
  match apiKey with
  | none => text
  | some _ =>
    match netResult with
    | some t => t
    | none => text

/-- `_extract_translation_from_generated_text` (lines 429–439).  Python's
`sep in s`, `s.split(sep)[-1]` and `s.replace(sep, "")` are modelled with
`String.splitOn`: `sep` occurs in `s` iff the split has more than one
part. -/
def _extract_translation_from_generated_text (generated_text original_text : String) :
    String :=
  if (generated_text.splitOn "English:").length > 1 then
    ((generated_text.splitOn "English:").getLastD "").trim
  else if (generated_text.splitOn "Translation:").length > 1 then
    ((generated_text.splitOn "Translation:").getLastD "").trim
  else
    let prompt_part :=
      "Translate the following Danish text to English. Only return the translation:\n\n"
        ++ original_text
    if (generated_text.splitOn prompt_part).length > 1 then
      (String.intercalate "" (generated_text.splitOn prompt_part)).trim
    else
      generated_text.trim

/-- `translate_with_huggingface_mistral` (lines 396–426): missing
`HUGGINGFACE_API_KEY` returns a fixed sentinel string.  `netGenerated`
models the parsed response: `none` = the request raised (caught, returns
the input), `some none` = the JSON was not a non-empty list (returns the
input), `some (some g)` = `result[0]["generated_text"] = g`. -/
def translate_with_huggingface_mistral (apiKey : Option String)
    (netGenerated : Option (Option String)) (text : String) : String :=
  match apiKey with
  | none => "[Hugging Face API key not configured - Original Danish text]"
  | some _ =>
    match netGenerated with
    | none => text
    | some none => text
    | some (some g) => _extract_translation_from_generated_text g text

/-- `_translate_with_mistral` (lines 373–393): a successful local Ollama
call returns its content; an `ImportError` or any other failure falls back
to `translate_with_huggingface_mistral`.  `ollamaResult = none` models both
fallback paths. -/
def _translate_with_mistral (hfApiKey : Option String)
    (ollamaResult : Option String) (netGenerated : Option (Option String))
    (text : String) : String :=
  match ollamaResult with
  | some t => t
  | none => translate_with_huggingface_mistral hfApiKey netGenerated text

/-- `translate_with_together_ai` (lines 442–504): missing `API_KEY` returns
a fixed sentinel; empty or whitespace-only text returns `""`; a raised
request or a response without `choices` returns the input text (both are
`netResult = none` here); otherwise the stripped response content is
returned, except that for titles a translation longer than twice the input
is truncated to its first line (`translation.split("\n")[0]`). -/
def translate_with_together_ai (apiKey : Option String) (netResult : Option String)
    (text : String) (is_title : Bool := false) : String :=
  match apiKey with
  | none => "[API key not configured - Original Danish text]"
  | some _ =>
    if text.trim = "" then ""
    else
      match netResult with
      | none => text
      | some translation =>
        if is_title ∧ 2 * text.length < translation.length then
          (translation.splitOn "\n").headD translation
        else translation

/-- The environment variables consulted by the translation providers. -/
structure TranslationEnv where
  DEEPL_API_KEY : Option String
  OPENAI_API_KEY : Option String
  HUGGINGFACE_API_KEY : Option String
  API_KEY : Option String
deriving Repr

/-- The abstracted network outcomes for one `translate_text` call. -/
structure NetOutcomes where
  deepl : Option String
  openai : Option String
  ollama : Option String
  huggingface : Option (Option String)
  together : Option String
deriving Repr

/-- `translate_text` (lines 309–329): dispatch on the method tag; any other
tag (including the default `"none"`) returns the fixed sentinel
`"[No translation - Original Danish text]"`. -/
def translate_text (env : TranslationEnv) (net : NetOutcomes)
    (text : String) (method : String := "none") : String :=
  if method = "deepl" then _translate_with_deepl env.DEEPL_API_KEY net.deepl text
  else if method = "openai" then _translate_with_openai env.OPENAI_API_KEY net.openai text
  else if method = "mistral7b" then
    _translate_with_mistral env.HUGGINGFACE_API_KEY net.ollama net.huggingface text
  else if method = "togetherai" then
    translate_with_together_ai env.API_KEY net.together text
  else "[No translation - Original Danish text]"

/-! ## Content chunking (`fetch_and_translate.py` lines 592–630)

Strings are modelled as `List Char` so that Python's whitespace
`str.split()` can be reasoned about directly. -/

/-- The whitespace characters recognised by Python's bare `str.split()`
(restricted to the four common ones, matching `Char.isWhitespace`). -/
def isSpaceChar (c : Char) : Bool :=
  c = ' ' || c = '\t' || c = '\n' || c = '\r'

/-- Dropping a prefix never lengthens a list. -/
theorem dropWhileLengthLe (p : Char → Bool) (l : List Char) :
    (l.dropWhile p).length ≤ l.length := by
  induction l with
  | nil => simp [List.dropWhile]
  | cons c cs ih =>
    rw [List.dropWhile_cons]
    by_cases h : p c
    · simp only [h, if_true]
      exact Nat.le_succ_of_le ih
    · simp [h]

/-- Python's bare `str.split()`: split on runs of whitespace, discarding
empty pieces. -/
def splitWS : List Char → List (List Char)
  | [] => []
  | c :: cs =>
    if isSpaceChar c then splitWS cs
    else (c :: cs.takeWhile (fun d => !isSpaceChar d))
      :: splitWS (cs.dropWhile (fun d => !isSpaceChar d))
termination_by l => l.length
decreasing_by
  · simp_wf
  · simp_wf
    have h := dropWhileLengthLe (fun d => !isSpaceChar d) cs
    omega

/-- `CHUNK_SIZE` (`fetch_and_translate.py` line 49). -/
def CHUNK_SIZE : Nat := 3000

/-- The word loop of `_split_content_into_chunks` (lines 616–628), with the
chunks kept as word lists: `current_chunk`/`current_length` are the loop
state; a word that would push the running length (`len(word) + 1` per word)
past `CHUNK_SIZE` closes the current chunk, and a non-empty trailing chunk
is flushed at the end. -/
def splitChunksLoop : List (List Char) → List (List Char) → Nat → List (List (List Char))
  | [], current_chunk, _ =>
    if current_chunk.isEmpty then [] else [current_chunk]
  | word :: words, current_chunk, current_length =>
    let word_length := word.length + 1
    if current_length + word_length > CHUNK_SIZE && !current_chunk.isEmpty then
      current_chunk :: splitChunksLoop words [word] word.length
    else
      splitChunksLoop words (current_chunk ++ [word]) (current_length + word_length)

/-- `_split_content_into_chunks` (lines 609–630): split the content into
words, group them by the size budget, and join each group with single
spaces (`" ".join(current_chunk)`). -/
def _split_content_into_chunks (content : List Char) : List (List Char) :=
  (splitChunksLoop (splitWS content) [] 0).map (List.intercalate [' '])

/-- `_translate_content_in_chunks` (lines 592–606) with the per-chunk call
`translate_text(chunk, method)` abstracted as `tr`: translate the chunks in
order and rejoin them with paragraph breaks (`"\n\n".join(...)`). -/
def _translate_content_in_chunks (tr : List Char → List Char) (content : List Char) :
    List Char :=
  List.intercalate ['\n', '\n'] ((_split_content_into_chunks content).map tr)

/-- Whitespace normalisation `" ".join(s.split())` as used on scraped
content (`_extract_content`, line 282). -/
def normalizeWS (s : List Char) : List Char :=
  List.intercalate [' '] (splitWS s)

/-! ## Helper lemmas about the store operations -/

theorem cleanup_fst (now : Int) (store : List Article) :
    (cleanup_old_articles now store).1
      = store.filter (fun r => !olderThanCutoff (now - 7 * 86400) r) := rfl

/-- Counting a list minus its kept part counts the removed part. -/
theorem lengthSubFilterNot {α : Type} (p : α → Bool) (l : List α) :
    (l.length : Int) - ((l.filter fun r => !p r).length : Int)
      = ((l.filter p).length : Int) := by
  induction l with
  | nil => simp
  | cons a l ih =>
    by_cases h : p a <;> simp [List.filter_cons, h] <;> omega

theorem cleanup_snd (now : Int) (store : List Article) :
    (cleanup_old_articles now store).2
      = ((store.filter (fun r => olderThanCutoff (now - 7 * 86400) r)).length : Int) :=
  lengthSubFilterNot (olderThanCutoff (now - 7 * 86400)) store

/-- A store whose rows are all inside the retention window is untouched by
the sweep. -/
theorem cleanup_noop (now : Int) (store : List Article)
    (h : ∀ r ∈ store, olderThanCutoff (now - 7 * 86400) r = false) :
    cleanup_old_articles now store = (store, 0) := by
  have h1 : store.filter (fun r => !olderThanCutoff (now - 7 * 86400) r) = store := by
    rw [List.filter_eq_self]
    intro a ha
    rw [h a ha]
    rfl
  show (_, (store.length : Int) - _) = _
  rw [h1]
  simp

theorem save_empty_batch (now : Int) (ir : Bool) (store : List Article) :
    save_to_db now ir store [] = (store, 0, 0, 0) := rfl

/-- Success path, empty store: everything is inserted, then swept. -/
theorem save_empty_store (now : Int) (df : List Article) (hdf : df ≠ []) :
    save_to_db now false [] df
      = ((cleanup_old_articles now df).1, (cleanup_old_articles now df).2, 0,
          (df.length : Int)) := by
  have hlen : ¬ df.length = 0 := by simpa using hdf
  simp [save_to_db, hlen]

/-- Success path, non-empty store, all batch keys already present: nothing
is inserted. -/
theorem save_all_duplicates (now : Int) (store df : List Article)
    (hs : store ≠ []) (hdf : df ≠ [])
    (hdup : ∀ r ∈ df, article_key r ∈ store.map article_key) :
    save_to_db now false store df
      = ((cleanup_old_articles now store).1, (cleanup_old_articles now store).2,
          (df.length : Int), 0) := by
  have hlen : ¬ df.length = 0 := by simpa using hdf
  have hslen : store.length ≠ 0 := by simpa using hs
  have hfil : df.filter
      (fun r => !((store.map article_key).contains (article_key r))) = [] := by
    rw [List.filter_eq_nil_iff]
    intro r hr
    simp [hdup r hr]
  simp only [save_to_db]
  rw [if_neg hlen, if_pos hslen, hfil]
  simp

/-- Success path, non-empty store, at least one fresh key: the fresh rows
are appended, then the sweep runs. -/
theorem save_some_fresh (now : Int) (store df : List Article)
    (hs : store ≠ []) (hdf : df ≠ [])
    (hfresh : df.filter
      (fun r => !((store.map article_key).contains (article_key r))) ≠ []) :
    save_to_db now false store df
      = ((cleanup_old_articles now
            (store ++ df.filter
              (fun r => !((store.map article_key).contains (article_key r))))).1,
         (cleanup_old_articles now
            (store ++ df.filter
              (fun r => !((store.map article_key).contains (article_key r))))).2,
         (df.length : Int)
           - ((df.filter
              (fun r => !((store.map article_key).contains (article_key r)))).length : Int),
         ((df.filter
              (fun r => !((store.map article_key).contains (article_key r)))).length : Int))
      := by
  have hlen : ¬ df.length = 0 := by simpa using hdf
  have hslen : store.length ≠ 0 := by simpa using hs
  have hpos : 0 < (df.filter
      (fun r => !((store.map article_key).contains (article_key r)))).length :=
    List.length_pos.mpr hfresh
  simp only [save_to_db]
  rw [if_neg hlen, if_pos hslen, if_pos hpos]
  simp

/-- Failed insert, empty store: the `except` branch returns `(0,0,0)` and
the store keeps its rows. -/
theorem save_insert_raises_empty_store (now : Int) (df : List Article) (hdf : df ≠ []) :
    save_to_db now true [] df = ([], 0, 0, 0) := by
  have hlen : ¬ df.length = 0 := by simpa using hdf
  simp [save_to_db, hlen]

/-- Failed insert, non-empty store with at least one fresh key. -/
theorem save_insert_raises_fresh (now : Int) (store df : List Article)
    (hs : store ≠ []) (hdf : df ≠ [])
    (hfresh : df.filter
      (fun r => !((store.map article_key).contains (article_key r))) ≠ []) :
    save_to_db now true store df = (store, 0, 0, 0) := by
  have hlen : ¬ df.length = 0 := by simpa using hdf
  have hslen : store.length ≠ 0 := by simpa using hs
  have hpos : 0 < (df.filter
      (fun r => !((store.map article_key).contains (article_key r)))).length :=
    List.length_pos.mpr hfresh
  simp only [save_to_db]
  rw [if_neg hlen, if_pos hslen, if_pos hpos]
  simp

/-! ## Claim theorems -/

/-- C1 (corrected): when the insert step of `save_to_db` fails on a
non-empty batch that actually reaches the `INSERT` (the store is empty, or
some batch key is fresh), the store is indeed left in its pre-insert state,
but the failure is *not* surfaced: the call returns exactly the fabricated
zero-count tuple `(0, 0, 0)`. -/
theorem save_insert_failure_swallowed (now : Int) (store df : List Article)
    (hdf : df ≠ [])
    (hattempt : store = [] ∨ df.filter
      (fun r => !((store.map article_key).contains (article_key r))) ≠ []) :
    save_to_db now true store df = (store, 0, 0, 0) := by
  by_cases hs : store = []
  · subst hs
    exact save_insert_raises_empty_store now df hdf
  · rcases hattempt with h | h
    · exact absurd h hs
    · exact save_insert_raises_fresh now store df hs hdf h

/-- Witness for C1 at a concrete input. -/
theorem save_insert_failure_swallowed_witness :
    save_to_db 0 true [] [mkArticle (some "A") (some "S") (some "L") (some 0)]
      = ([], 0, 0, 0) :=
  save_insert_failure_swallowed 0 [] [mkArticle (some "A") (some "S") (some "L") (some 0)]
    (by decide) (Or.inl rfl)

/-- C1 counterexample: a concrete non-empty batch whose insert fails makes
`save_to_db` report the zero-count success tuple `(0, 0, 0)` instead of
surfacing the error (the result type carries no error at all). -/
theorem save_insert_failure_zero_tuple_cex :
    [mkArticle (some "A") (some "S") (some "L") (some 0)] ≠ ([] : List Article) ∧
    (save_to_db 0 true [] [mkArticle (some "A") (some "S") (some "L") (some 0)]).2
      = (0, 0, 0) := by
  constructor
  · decide
  · rfl

/-- C3 (confirmed): a stored row with `summary = null` and an incoming
candidate with `summary = ""` and the same title/link compose the same
duplicate key (null-like values map to `""` on both sides), so the
candidate is skipped: one skipped, zero added. -/
theorem null_empty_summary_duplicate (now : Int) (t l : Option String)
    (p1 p2 : Option Int) :
    article_key (mkArticle t none l p1) = article_key (mkArticle t (some "") l p2) ∧
    (save_to_db now false [mkArticle t none l p1] [mkArticle t (some "") l p2]).2.2
      = (1, 0) := by
  have hkey : article_key (mkArticle t none l p1)
      = article_key (mkArticle t (some "") l p2) := rfl
  refine ⟨hkey, ?_⟩
  have h := save_all_duplicates now [mkArticle t none l p1]
    [mkArticle t (some "") l p2] (by simp) (by simp) ?_
  · rw [h]
    simp
  · intro x hx
    simp only [List.mem_singleton] at hx
    subst hx
    simp only [List.map_cons, List.map_nil, List.mem_singleton]
    exact hkey.symm

/-- C4 (confirmed): the retention sweep removes exactly the rows whose
`published` is strictly older than `now - 7 days` and returns the number
of rows removed; in particular rows at `now-1d, now-6d, now-8d, now-10d`
lose exactly the last two, with a return value of `2`. -/
theorem cleanup_retention_correct :
    (∀ (now : Int) (store : List Article), cleanup_old_articles now store
        = (store.filter (fun r => !olderThanCutoff (now - 7 * 86400) r),
           ((store.filter (fun r => olderThanCutoff (now - 7 * 86400) r)).length : Int))) ∧
    (∀ now : Int, cleanup_old_articles now
        [mkArticle none none none (some (now - 86400)),
         mkArticle none none none (some (now - 6 * 86400)),
         mkArticle none none none (some (now - 8 * 86400)),
         mkArticle none none none (some (now - 10 * 86400))]
      = ([mkArticle none none none (some (now - 86400)),
          mkArticle none none none (some (now - 6 * 86400))], 2)) := by
  have hgen : ∀ (now : Int) (store : List Article), cleanup_old_articles now store
      = (store.filter (fun r => !olderThanCutoff (now - 7 * 86400) r),
         ((store.filter (fun r => olderThanCutoff (now - 7 * 86400) r)).length : Int)) :=
    fun now store => Prod.ext (cleanup_fst now store) (cleanup_snd now store)
  refine ⟨hgen, ?_⟩
  intro now
  have e1 : olderThanCutoff (now - 7 * 86400)
      (mkArticle none none none (some (now - 86400))) = false := by
    simp only [olderThanCutoff, mkArticle, decide_eq_false_iff_not]
    omega
  have e2 : olderThanCutoff (now - 7 * 86400)
      (mkArticle none none none (some (now - 6 * 86400))) = false := by
    simp only [olderThanCutoff, mkArticle, decide_eq_false_iff_not]
    omega
  have e3 : olderThanCutoff (now - 7 * 86400)
      (mkArticle none none none (some (now - 8 * 86400))) = true := by
    simp only [olderThanCutoff, mkArticle, decide_eq_true_eq]
    omega
  have e4 : olderThanCutoff (now - 7 * 86400)
      (mkArticle none none none (some (now - 10 * 86400))) = true := by
    simp only [olderThanCutoff, mkArticle, decide_eq_true_eq]
    omega
  rw [hgen]
  refine Prod.ext ?_ ?_
  · simp only [List.filter_cons, List.filter_nil, e1, e2, e3, e4]
    simp
  · show ((List.filter _ _).length : Int) = 2
    rw [show ([mkArticle none none none (some (now - 86400)),
         mkArticle none none none (some (now - 6 * 86400)),
         mkArticle none none none (some (now - 8 * 86400)),
         mkArticle none none none (some (now - 10 * 86400))].filter
          (fun r => olderThanCutoff (now - 7 * 86400) r))
        = [mkArticle none none none (some (now - 8 * 86400)),
           mkArticle none none none (some (now - 10 * 86400))] from by
      simp only [List.filter_cons, List.filter_nil, e1, e2, e3, e4]
      simp]
    rfl

/-- C10 (confirmed): `save_to_db` dedups only against pre-existing rows:
an exact duplicate pair saved into an empty store gives `added=2,
skipped=0` on the first call and `added=0, skipped=2` on an immediate
re-save of the same batch. -/
theorem save_dedup_pre_existing_only (now : Int) (r : Article)
    (hrec : olderThanCutoff (now - 7 * 86400) r = false) :
    (save_to_db now false [] [r, r]).2 = (0, 0, 2) ∧
    (save_to_db now false (save_to_db now false [] [r, r]).1 [r, r]).2 = (0, 2, 0) := by
  have hdf : ([r, r] : List Article) ≠ [] := by simp
  have hd : ∀ x ∈ [r, r], olderThanCutoff (now - 7 * 86400) x = false := by
    intro x hx
    rcases List.mem_cons.mp hx with h | h
    · rw [h]; exact hrec
    · rw [List.mem_singleton.mp h]; exact hrec
  have h1 := save_empty_store now [r, r] hdf
  have hclean := cleanup_noop now [r, r] hd
  have hdup : ∀ x ∈ [r, r], article_key x ∈ ([r, r] : List Article).map article_key := by
    intro x hx
    exact List.mem_map_of_mem article_key hx
  constructor
  · rw [h1, hclean]
    norm_num
  · rw [h1, hclean]
    show (save_to_db now false [r, r] [r, r]).2 = _
    rw [save_all_duplicates now [r, r] [r, r] hdf hdf hdup, hclean]
    norm_num

/-- Witness for C10 at a concrete input. -/
theorem save_dedup_pre_existing_only_witness :
    (save_to_db 0 false []
      [mkArticle (some "A") (some "S1") (some "L1") (some 0),
       mkArticle (some "A") (some "S1") (some "L1") (some 0)]).2 = (0, 0, 2) ∧
    (save_to_db 0 false
      (save_to_db 0 false []
        [mkArticle (some "A") (some "S1") (some "L1") (some 0),
         mkArticle (some "A") (some "S1") (some "L1") (some 0)]).1
      [mkArticle (some "A") (some "S1") (some "L1") (some 0),
       mkArticle (some "A") (some "S1") (some "L1") (some 0)]).2 = (0, 2, 0) :=
  save_dedup_pre_existing_only 0 (mkArticle (some "A") (some "S1") (some "L1") (some 0))
    (by decide)

/-- C6 counterexample: `translate_text` with method `"none"` on the
concrete input `"hej"` returns the fixed sentinel, not the input. -/
theorem translate_none_returns_sentinel_cex :
    translate_text ⟨none, none, none, none⟩ ⟨none, none, none, none, none⟩ "hej" "none"
      = "[No translation - Original Danish text]" ∧
    translate_text ⟨none, none, none, none⟩ ⟨none, none, none, none, none⟩ "hej" "none"
      ≠ "hej" := by
  constructor
  · rfl
  · decide

/-- C6 (corrected): for every environment, network outcome and text,
`translate_text(text, "none")` returns the explicit no-translation
sentinel `"[No translation - Original Danish text]"` rather than the
input text. -/
theorem translate_none_returns_sentinel (env : TranslationEnv) (net : NetOutcomes)
    (text : String) :
    translate_text env net text "none" = "[No translation - Original Danish text]" := rfl

/-- C7 counterexample: with no `API_KEY` credential, the Together AI
provider returns a fixed sentinel string, not the original text. -/
theorem provider_missing_key_cex :
    translate_with_together_ai none none "hej" false
      = "[API key not configured - Original Danish text]" ∧
    translate_with_together_ai none none "hej" false ≠ "hej" := by
  constructor
  · rfl
  · decide

/-- C7 (corrected): with the provider's credential absent none of the
providers raises, but they do not all return the input unchanged: DeepL
and OpenAI return the original text, while the Hugging Face and Together
AI providers return fixed sentinel strings. -/
theorem provider_missing_key_behaviour (text : String) (netD netO netT : Option String)
    (netH : Option (Option String)) :
    _translate_with_deepl none netD text = text ∧
    _translate_with_openai none netO text = text ∧
    translate_with_huggingface_mistral none netH text
      = "[Hugging Face API key not configured - Original Danish text]" ∧
    translate_with_together_ai none netT text false
      = "[API key not configured - Original Danish text]" :=
  ⟨rfl, rfl, rfl, rfl⟩

theorem publishedDescBefore_trans (a b c : Article)
    (hab : publishedDescBefore a b = true) (hbc : publishedDescBefore b c = true) :
    publishedDescBefore a c = true := by
  revert hab hbc
  unfold publishedDescBefore
  cases a.published <;> cases b.published <;> cases c.published <;> simp
  omega

theorem publishedDescBefore_total (a b : Article) :
    (publishedDescBefore a b || publishedDescBefore b a) = true := by
  unfold publishedDescBefore
  cases a.published <;> cases b.published <;> simp
  omega

/-- C8 counterexample: `db.py`'s `load_latest` — the variant imported by
the dashboard — has no guard, so a missing `articles` table raises a
catalog error instead of returning an empty result. -/
theorem db_load_latest_missing_table_cex :
    Db.load_latest 50 none
      = Except.error "Catalog Error: Table with name articles does not exist" := rfl

/-- C8 (corrected): `db_new.py`'s `load_latest` is total: a missing table
yields `[]`, and otherwise it returns at most `n` rows of the table,
ordered by `published` descending. `db.py`'s variant instead propagates
the missing-table error. -/
theorem dbnew_load_latest_total (n : Nat) (rows : List Article) :
    DbNew.load_latest n none = [] ∧
    (DbNew.load_latest n (some rows)).length ≤ n ∧
    List.Pairwise (fun a b => publishedDescBefore a b = true)
      (DbNew.load_latest n (some rows)) ∧
    ∀ r ∈ DbNew.load_latest n (some rows), r ∈ rows := by
  refine ⟨rfl, ?_, ?_, ?_⟩
  · exact List.length_take_le n _
  · exact List.Pairwise.sublist (List.take_sublist n _)
      (List.sorted_mergeSort publishedDescBefore_trans publishedDescBefore_total rows)
  · intro r hr
    exact (List.mergeSort_perm rows publishedDescBefore).subset
      ((List.take_sublist n _).subset hr)

/-- After a successful save of an all-recent batch into an all-recent
store, every row of the resulting store is still recent, the store is
non-empty, and every batch key is present in it. -/
theorem save_within_retention_state (now : Int) (store df : List Article)
    (hdf : df ≠ [])
    (hs : ∀ r ∈ store, olderThanCutoff (now - 7 * 86400) r = false)
    (hd : ∀ r ∈ df, olderThanCutoff (now - 7 * 86400) r = false) :
    (∀ r ∈ (save_to_db now false store df).1,
      olderThanCutoff (now - 7 * 86400) r = false) ∧
    (save_to_db now false store df).1 ≠ [] ∧
    (∀ r ∈ df, article_key r ∈ ((save_to_db now false store df).1).map article_key) := by
  by_cases hst : store = []
  · subst hst
    rw [save_empty_store now df hdf, cleanup_noop now df hd]
    refine ⟨hd, hdf, ?_⟩
    intro r hr
    exact List.mem_map_of_mem article_key hr
  · by_cases hfresh : df.filter
        (fun r => !((store.map article_key).contains (article_key r))) = []
    · have hdup : ∀ r ∈ df, article_key r ∈ store.map article_key := by
        intro r hr
        have h := List.filter_eq_nil_iff.mp hfresh r hr
        simpa using h
      rw [save_all_duplicates now store df hst hdf hdup, cleanup_noop now store hs]
      refine ⟨hs, hst, hdup⟩
    · have hrecapp : ∀ r ∈ store ++ df.filter
          (fun r => !((store.map article_key).contains (article_key r))),
          olderThanCutoff (now - 7 * 86400) r = false := by
        intro r hr
        rcases List.mem_append.mp hr with h | h
        · exact hs r h
        · exact hd r (List.mem_of_mem_filter h)
      rw [save_some_fresh now store df hst hdf hfresh, cleanup_noop now _ hrecapp]
      refine ⟨hrecapp, by simp [hst], ?_⟩
      intro r hr
      rw [List.map_append]
      by_cases hc : (store.map article_key).contains (article_key r)
      · refine List.mem_append.mpr (Or.inl ?_)
        simpa using hc
      · refine List.mem_append.mpr (Or.inr ?_)
        refine List.mem_map_of_mem article_key ?_
        rw [Bool.not_eq_true] at hc
        exact List.mem_filter.mpr ⟨hr, by rw [hc]; rfl⟩

/-- C2 (corrected): running `save_to_db` twice with the identical batch
yields `added = 0` on the second call and leaves the row count unchanged,
*provided* every row of the batch and of the initial store lies within the
7-day retention window (otherwise the retention sweep at the end of the
first call deletes the old rows and the second call re-adds them). -/
theorem save_idempotent_within_retention (now : Int) (store df : List Article)
    (hs : ∀ r ∈ store, olderThanCutoff (now - 7 * 86400) r = false)
    (hd : ∀ r ∈ df, olderThanCutoff (now - 7 * 86400) r = false) :
    (save_to_db now false (save_to_db now false store df).1 df).2.2.2 = 0 ∧
    ((save_to_db now false (save_to_db now false store df).1 df).1).length
      = ((save_to_db now false store df).1).length := by
  by_cases hdf : df = []
  · subst hdf
    rw [save_empty_batch]
    exact ⟨rfl, rfl⟩
  · obtain ⟨hrec1, hne1, hkeys⟩ := save_within_retention_state now store df hdf hs hd
    rw [save_all_duplicates now _ df hne1 hdf hkeys, cleanup_noop now _ hrec1]
    exact ⟨rfl, rfl⟩

/-- Witness for C2 (corrected) at a concrete input. -/
theorem save_idempotent_within_retention_witness :
    (save_to_db 0 false
      (save_to_db 0 false [] [mkArticle (some "A") (some "S") (some "L") (some 0)]).1
      [mkArticle (some "A") (some "S") (some "L") (some 0)]).2.2.2 = 0 ∧
    ((save_to_db 0 false
      (save_to_db 0 false [] [mkArticle (some "A") (some "S") (some "L") (some 0)]).1
      [mkArticle (some "A") (some "S") (some "L") (some 0)]).1).length
      = ((save_to_db 0 false [] [mkArticle (some "A") (some "S") (some "L") (some 0)]).1).length :=
  save_idempotent_within_retention 0 [] [mkArticle (some "A") (some "S") (some "L") (some 0)]
    (by simp) (by decide)

/-- C2 counterexample: a batch whose single row is published 8 days ago is
inserted and immediately deleted by the retention sweep of the first call;
the identical second call therefore re-adds it and reports `added = 1`,
refuting unconditional dedup idempotence. -/
theorem save_idempotence_cex :
    (save_to_db 0 false
      (save_to_db 0 false []
        [mkArticle (some "A") (some "S") (some "L") (some (-691200))]).1
      [mkArticle (some "A") (some "S") (some "L") (some (-691200))]).2.2.2 = 1 := by
  decide

/-- C5 (confirmed): `_process_feed_entries` keeps exactly the entries whose
published date parsed and is not strictly older than the cutoff, in order;
unparseable dates are dropped, never defaulted.  In particular, with the
cutoff `now - 24h`, entries published at `now-1h`, `now-23h`, `now-25h`
plus one unparseable entry yield exactly the first two. -/
theorem poll_recency_filter :
    (∀ (now : Int) (feed_url : String) (cutoff : Int) (entries : List FeedEntry),
      _process_feed_entries now feed_url entries cutoff
        = (entries.filter (entryKept cutoff)).map
            (fun e => mkCandidate now feed_url e (e.published.getD 0))) ∧
    (∀ (now : Int) (feed_url : String),
      _process_feed_entries now feed_url
        [⟨"t1", "s1", "l1", some (now - 3600)⟩,
         ⟨"t2", "s2", "l2", some (now - 23 * 3600)⟩,
         ⟨"t3", "s3", "l3", some (now - 25 * 3600)⟩,
         ⟨"t4", "s4", "l4", none⟩] (now - 24 * 3600)
      = [mkCandidate now feed_url ⟨"t1", "s1", "l1", some (now - 3600)⟩ (now - 3600),
         mkCandidate now feed_url ⟨"t2", "s2", "l2", some (now - 23 * 3600)⟩
           (now - 23 * 3600)]) := by
  constructor
  · intro now feed_url cutoff entries
    induction entries with
    | nil => rfl
    | cons e es ih =>
      simp only [_process_feed_entries] at ih ⊢
      cases hp : e.published with
      | none =>
        simp only [List.filterMap_cons, List.filter_cons, entryKept, hp]
        exact ih
      | some p =>
        by_cases hc : cutoff ≤ p
        · simp only [List.filterMap_cons, List.filter_cons, entryKept, hp, if_pos hc]
          rw [if_pos (by simp [hc])]
          simp only [List.map_cons, hp, Option.getD_some]
          exact congrArg _ ih
        · simp only [List.filterMap_cons, List.filter_cons, entryKept, hp, if_neg hc]
          rw [if_neg (by simp [hc])]
          exact ih
  · intro now feed_url
    simp only [_process_feed_entries, List.filterMap_cons, List.filterMap_nil]
    rw [if_pos (by omega : now - 24 * 3600 ≤ now - 3600),
        if_pos (by omega : now - 24 * 3600 ≤ now - 23 * 3600),
        if_neg (by omega : ¬ now - 24 * 3600 ≤ now - 25 * 3600)]

/-! ## The chunk/rejoin round trip (C9) -/

/-- A word as produced by `str.split()`: non-empty and whitespace-free. -/
def goodWord (w : List Char) : Prop :=
  w ≠ [] ∧ ∀ c ∈ w, isSpaceChar c = false

/-- `rest` is empty or starts with whitespace. -/
def headSpace : List Char → Prop
  | [] => True
  | c :: _ => isSpaceChar c = true

theorem splitWS_nil : splitWS [] = [] := by
  simp [splitWS]

theorem splitWS_space (c : Char) (cs : List Char) (h : isSpaceChar c = true) :
    splitWS (c :: cs) = splitWS cs := by
  rw [splitWS, if_pos h]

theorem takeWhileAppendAll {α : Type} (p : α → Bool) (l1 l2 : List α)
    (h : ∀ x ∈ l1, p x = true) :
    (l1 ++ l2).takeWhile p = l1 ++ l2.takeWhile p := by
  induction l1 with
  | nil => simp
  | cons a l ih =>
    rw [List.cons_append, List.takeWhile_cons, if_pos (h a (by simp))]
    rw [ih (fun x hx => h x (by simp [hx])), List.cons_append]

theorem dropWhileAppendAll {α : Type} (p : α → Bool) (l1 l2 : List α)
    (h : ∀ x ∈ l1, p x = true) :
    (l1 ++ l2).dropWhile p = l2.dropWhile p := by
  induction l1 with
  | nil => simp
  | cons a l ih =>
    rw [List.cons_append, List.dropWhile_cons, if_pos (h a (by simp))]
    exact ih (fun x hx => h x (by simp [hx]))

theorem takeWhileHeadSpace (rest : List Char) (h : headSpace rest) :
    rest.takeWhile (fun d => !isSpaceChar d) = [] := by
  cases rest with
  | nil => rfl
  | cons c cs =>
    rw [List.takeWhile_cons, if_neg]
    rw [h]
    simp

theorem dropWhileHeadSpace (rest : List Char) (h : headSpace rest) :
    rest.dropWhile (fun d => !isSpaceChar d) = rest := by
  cases rest with
  | nil => rfl
  | cons c cs =>
    rw [List.dropWhile_cons, if_neg]
    rw [h]
    simp

/-- Splitting a whitespace-free word followed by a space (or the end of the
string) yields the word followed by the split of the rest. -/
theorem splitWS_word_append (w rest : List Char) (hw : goodWord w)
    (hrest : headSpace rest) : splitWS (w ++ rest) = w :: splitWS rest := by
  obtain ⟨hne, hns⟩ := hw
  cases w with
  | nil => exact absurd rfl hne
  | cons c w0 =>
    rw [List.cons_append, splitWS, if_neg (by rw [hns c (by simp)]; simp)]
    have hall : ∀ x ∈ w0, (fun d => !isSpaceChar d) x = true := by
      intro x hx
      show (!isSpaceChar x) = true
      rw [hns x (by simp [hx])]
      rfl
    rw [takeWhileAppendAll _ w0 rest hall, dropWhileAppendAll _ w0 rest hall]
    rw [takeWhileHeadSpace rest hrest, dropWhileHeadSpace rest hrest]
    rw [List.append_nil]

/-- Every piece produced by `splitWS` is a non-empty whitespace-free
word. -/
theorem splitWS_goodWords (s : List Char) : ∀ w ∈ splitWS s, goodWord w := by
  induction s using splitWS.induct with
  | case1 => intro w hw; simp [splitWS_nil] at hw
  | case2 c cs h ih =>
    intro w hw
    rw [splitWS_space c cs h] at hw
    exact ih w hw
  | case3 c cs h ih =>
    intro w hw
    rw [splitWS, if_neg h] at hw
    rcases List.mem_cons.mp hw with heq | hmem
    · subst heq
      refine ⟨by simp, ?_⟩
      intro x hx
      rcases List.mem_cons.mp hx with rfl | hx0
      · exact Bool.not_eq_true _ ▸ h
      · have := List.mem_takeWhile_imp hx0
        simpa using this
    · exact ih w hmem

/-- Splitting words joined by single spaces, followed by a space-or-end
remainder, recovers the words. -/
theorem splitWS_intercalate_space (ws : List (List Char)) (rest : List Char)
    (hws : ∀ w ∈ ws, goodWord w) (hne : ws ≠ []) (hrest : headSpace rest) :
    splitWS (List.intercalate [' '] ws ++ rest) = ws ++ splitWS rest := by
  induction ws with
  | nil => exact absurd rfl hne
  | cons w ws0 ih =>
    cases ws0 with
    | nil =>
      rw [show List.intercalate [' '] [w] = w from by simp [List.intercalate]]
      rw [splitWS_word_append w rest (hws w (by simp)) hrest]
      rfl
    | cons w2 ws1 =>
      rw [show List.intercalate [' '] (w :: w2 :: ws1)
          = w ++ [' '] ++ List.intercalate [' '] (w2 :: ws1) from by
        simp [List.intercalate, List.intersperse]]
      rw [List.append_assoc, List.append_assoc, List.singleton_append]
      rw [splitWS_word_append w _ (hws w (by simp)) (by exact rfl)]
      rw [splitWS_space ' ' _ (by exact rfl)]
      rw [ih (fun x hx => hws x (by simp [hx])) (by simp)]
      rfl

/-- Splitting chunks (each a word list joined by single spaces) joined by
paragraph breaks recovers the concatenation of the chunk word lists. -/
theorem splitWS_rejoin (cl : List (List (List Char))) (rest : List Char)
    (hwords : ∀ ch ∈ cl, ∀ w ∈ ch, goodWord w)
    (hne : ∀ ch ∈ cl, ch ≠ []) (hrest : headSpace rest) :
    splitWS (List.intercalate ['\n', '\n'] (cl.map (List.intercalate [' '])) ++ rest)
      = cl.flatten ++ splitWS rest := by
  induction cl with
  | nil => simp [List.intercalate]
  | cons ch cl0 ih =>
    cases cl0 with
    | nil =>
      rw [show List.intercalate ['\n', '\n']
            (List.map (List.intercalate [' ']) [ch]) = List.intercalate [' '] ch from by
        simp [List.intercalate]]
      rw [splitWS_intercalate_space ch rest (hwords ch (by simp)) (hne ch (by simp)) hrest]
      simp
    | cons ch2 cl1 =>
      rw [show List.intercalate ['\n', '\n']
            (List.map (List.intercalate [' ']) (ch :: ch2 :: cl1))
          = List.intercalate [' '] ch ++ ['\n', '\n']
            ++ List.intercalate ['\n', '\n']
                (List.map (List.intercalate [' ']) (ch2 :: cl1)) from by
        simp [List.intercalate, List.intersperse]]
      rw [List.append_assoc, List.append_assoc]
      rw [splitWS_intercalate_space ch _ (hwords ch (by simp)) (hne ch (by simp))
        (by exact rfl)]
      rw [show (['\n', '\n'] : List Char)
            ++ (List.intercalate ['\n', '\n']
                (List.map (List.intercalate [' ']) (ch2 :: cl1)) ++ rest)
          = '\n' :: ('\n' :: (List.intercalate ['\n', '\n']
                (List.map (List.intercalate [' ']) (ch2 :: cl1)) ++ rest)) from rfl]
      rw [splitWS_space '\n' _ (by exact rfl), splitWS_space '\n' _ (by exact rfl)]
      rw [ih (fun c hc => hwords c (by simp [hc])) (fun c hc => hne c (by simp [hc]))]
      simp

/-- The chunks produced by the word loop concatenate back to the pending
chunk followed by the remaining words. -/
theorem splitChunksLoop_flatten (ws : List (List Char)) :
    ∀ (acc : List (List Char)) (n : Nat),
      (splitChunksLoop ws acc n).flatten = acc ++ ws := by
  induction ws with
  | nil =>
    intro acc n
    simp only [splitChunksLoop]
    by_cases h : acc.isEmpty
    · rw [if_pos h]
      simp [List.isEmpty_iff.mp h]
    · rw [if_neg h]
      simp
  | cons w ws0 ih =>
    intro acc n
    simp only [splitChunksLoop]
    by_cases h : (n + (w.length + 1) > CHUNK_SIZE && !acc.isEmpty) = true
    · rw [if_pos h]
      rw [List.flatten_cons, ih]
      simp
    · rw [if_neg h]
      rw [ih]
      simp

/-- Every chunk produced by the word loop is a non-empty word list. -/
theorem splitChunksLoop_chunks_ne (ws : List (List Char)) :
    ∀ (acc : List (List Char)) (n : Nat),
      ∀ ch ∈ splitChunksLoop ws acc n, ch ≠ [] := by
  induction ws with
  | nil =>
    intro acc n ch hch
    simp only [splitChunksLoop] at hch
    by_cases h : acc.isEmpty
    · rw [if_pos h] at hch
      simp at hch
    · rw [if_neg h] at hch
      rw [List.mem_singleton] at hch
      subst hch
      intro hnil
      rw [hnil] at h
      simp at h
  | cons w ws0 ih =>
    intro acc n ch hch
    simp only [splitChunksLoop] at hch
    by_cases h : (n + (w.length + 1) > CHUNK_SIZE && !acc.isEmpty) = true
    · rw [if_pos h] at hch
      rcases List.mem_cons.mp hch with heq | hm
      · subst heq
        intro hnil
        rw [hnil] at h
        simp at h
      · exact ih _ _ ch hm
    · rw [if_neg h] at hch
      exact ih _ _ ch hch

/-- C9 (confirmed): splitting content into word-boundary chunks with
`_split_content_into_chunks` and rejoining the untranslated chunks with
paragraph breaks (`_translate_content_in_chunks` with the identity
transform) reproduces the whitespace-normalised original text. -/
theorem chunk_rejoin_round_trip (content : List Char) :
    normalizeWS (_translate_content_in_chunks id content) = normalizeWS content := by
  unfold normalizeWS _translate_content_in_chunks
  rw [List.map_id]
  unfold _split_content_into_chunks
  have hwords : ∀ ch ∈ splitChunksLoop (splitWS content) [] 0, ∀ w ∈ ch, goodWord w := by
    intro ch hch w hw
    have hmem : w ∈ (splitChunksLoop (splitWS content) [] 0).flatten :=
      List.mem_flatten.mpr ⟨ch, hch, hw⟩
    rw [splitChunksLoop_flatten (splitWS content) [] 0] at hmem
    exact splitWS_goodWords content w (by simpa using hmem)
  have hne := splitChunksLoop_chunks_ne (splitWS content) [] 0
  have h := splitWS_rejoin (splitChunksLoop (splitWS content) [] 0) [] hwords hne trivial
  rw [List.append_nil] at h
  rw [h, splitWS_nil, List.append_nil, splitChunksLoop_flatten, List.nil_append]

end BorsenNews
